import Mathlib

/-!
Shallow embedding of the page reconciliation and review-state persistence
engine of `sandwich_inspector_app.py`, together with proofs about its
load/save/review behaviour. JSON objects are modelled as Lean structures
whose optional keys are `Option` fields; JSON dictionaries keyed by page
number are modelled as association lists; table rows are association lists
from column name to cell text.
-/

set_option autoImplicit false

namespace SandwichInspector

/-- A table row: one JSON object mapping column names to cell values,
as in `rows: [{"Column A": "v1", "Column B": "v2"}, ...]`. -/
abbrev Row : Type := List (String × String)

/-- The `ProcessedTable` dataclass: a table title and its row data. -/
structure ProcessedTable where
  title : String
  data : List Row
deriving DecidableEq, Repr

/-- The `ProcessedPage` dataclass: the in-memory page record. -/
structure ProcessedPage where
  title : String
  content : String
  tables : List ProcessedTable
  keywords : List String
  pdf_page_number : Nat
deriving DecidableEq, Repr

/-! ## Filename page-number extraction (`extract_page_number`) -/

/-- Greedy run of leading decimal digits: the `\d+` capture of the regex.
Returns the digit run and the remaining characters. -/
def takeDigits : List Char → List Char × List Char
  | [] => ([], [])
  | c :: cs =>
    if c.isDigit then
      let p := takeDigits cs
      (c :: p.1, p.2)
    else ([], c :: cs)

/-- Numeric value of a digit run, most significant digit first. -/
def digitsToNat (ds : List Char) : Nat :=
  ds.foldl (fun a c => a * 10 + (c.toNat - 48)) 0

/-- Leftmost match of the pattern `page_(\d+)` over a character list,
as `re.search(r'page_(\d+)', s)` finds it: scan positions left to right;
at the first position where the literal `page_` is followed by at least
one digit, return the value of the maximal digit run. -/
def searchPageNum : List Char → Option Nat
  | [] => none
  | c :: cs =>
    if (c :: cs).take 5 = "page_".toList then
      let ds := (takeDigits ((c :: cs).drop 5)).1
      if ds = [] then searchPageNum cs else some (digitsToNat ds)
    else searchPageNum cs

/-- `extract_page_number(filename)`: page number extracted via the
`page_<N>` pattern, or `none` when the pattern does not occur. -/
def extract_page_number (s : String) : Option Nat :=
  searchPageNum s.toList

/-! ## Consolidated schema (`final_output.json`) on-disk shapes -/

/-- The `metadata` sub-object of a consolidated-schema table. -/
structure TableMeta where
  row_count : Nat
  column_count : Nat
  data_types : List String
deriving DecidableEq, Repr

/-- One entry of a consolidated-schema page's `tables` array. Optional
fields model keys that may be absent from the JSON object; `metadata` is
`none` when the `metadata` key is absent. -/
structure DiskTable where
  table_id : Option String
  title : Option String
  description : Option String
  rows : List Row
  metadata : Option TableMeta
deriving DecidableEq, Repr

/-- One entry of the consolidated file's `pages` array. `extra` stands for
the page fields the engine does not own (such as `summary` and
`processing_metadata`), which a save must leave untouched. -/
structure DiskPage where
  page_id : Option String
  page_number : Option Nat
  title : Option String
  keywords : List String
  content : Option String
  raw_content : Option String
  tables : List DiskTable
  extra : List (String × String)
deriving DecidableEq, Repr

/-- The consolidated document: the opaque `document_info` header (left
untouched by saves) and the `pages` array. -/
structure DiskDoc where
  document_info : List (String × String)
  pages : List DiskPage
deriving DecidableEq, Repr

/-- Page-number derivation for entry `i` of the consolidated `pages`
array (`_load_from_final_output`): the default is the positional index
plus one; `if 'page_id' in page_data:` try the `page_<N>` pattern on the
page identifier; `elif 'page_number' in page_data:` use the explicit page
number. The `elif` means the explicit page number is consulted only when
the `page_id` key is absent. -/
def derivePageNum (i : Nat) (pd : DiskPage) : Nat :=
  match pd.page_id with
  | some pid =>
    match extract_page_number pid with
    | some n => n
    | none => i + 1
  | none =>
    match pd.page_number with
    | some n => n
    | none => i + 1

/-- `processed_data_by_page`: each entry of the `pages` array keyed by its
derived page number. Later entries overwrite earlier ones in the Python
dict; the association list is built newest-first so that `List.lookup`
agrees with the dict. -/
def buildPageMap (pages : List DiskPage) : List (Nat × DiskPage) :=
  pages.enum.foldl (fun m ip => (derivePageNum ip.1 ip.2, ip.2) :: m) []

/-! ## Missing-page placeholder (`create_missing_page_placeholder`) -/

/-- Body text of the synthesized placeholder for a page the extraction
pipeline never produced. -/
def missingPageContent (n : Nat) : String :=
  "# Missing Page Data\n\n⚠️ **This page was not processed by the extraction pipeline.**\n\n**Page Number:** "
    ++ toString n
    ++ "\n\n## Possible Reasons:\n- Processing pipeline failed on this page\n- Complex page layout that couldn\x27t be parsed\n- Image-only content with no extractable data\n- PDF corruption or technical issues\n\n## Next Steps:\n1. 🔄 **Reprocess** this page individually\n2. 🔍 **Manual review** of the original PDF\n3. 🚩 **Flag for attention** during quality control\n\n---\n*This is an automatically generated placeholder for missing page data.*\n"

/-- `create_missing_page_placeholder(page_num)`: the deterministic
placeholder record for a missing page. -/
def create_missing_page_placeholder (n : Nat) : ProcessedPage :=
  { title := "❌ Missing Data - Page " ++ toString n
  , content := missingPageContent n
  , tables := []
  , keywords := ["missing", "unprocessed", "needs_attention", "placeholder"]
  , pdf_page_number := n }

/-! ## Review metadata file (`inspector_metadata.json`) -/

/-- Shape of `inspector_metadata.json`. `portfolioTag` models the
`portfolio` key. Absent keys read with defaults are modelled by the empty
list / `none`. -/
structure InspectorMetadata where
  page_statuses : List (Nat × String)
  flagged_pages : List Nat
  missing_pages : List Nat
  incomplete_pages : List Nat
  useless_pages : List Nat
  last_updated : String
  total_pages : Nat
  portfolioTag : Option String
deriving DecidableEq, Repr

/-- `_document_has_been_edited(document_folder)`: `none` models an absent
or unreadable `inspector_metadata.json` (the function then returns
`False`). -/
def documentHasBeenEdited (md : Option InspectorMetadata) : Bool :=
  match md with
  | none => false
  | some m =>
    let has_page_reviews :=
      m.page_statuses.any fun p => p.2 == "approved" || p.2 == "flagged"
    let has_useless_markings := !m.useless_pages.isEmpty
    let has_flagged_pages := !m.flagged_pages.isEmpty
    let has_portfolioTag :=
      match m.portfolioTag with
      | some s => s.trim != ""
      | none => false
    has_page_reviews || has_useless_markings || has_flagged_pages || has_portfolioTag

/-! ## Loading the consolidated schema (`_load_from_final_output`) -/

/-- Content chosen for a page present in the consolidated file: when the
document has been edited, `page_data.get('raw_content',
page_data.get('content', ''))` from the consolidated file is
authoritative; otherwise the first-pass markdown rendering is used when
present (`mdFile` is the content of `01_parsed_markdown/page_<n>.md` when
that file exists and is readable), with the same consolidated-file
fallback. -/
def selectContent (edited : Bool) (mdFile : Option String) (pd : DiskPage) : String :=
  if edited then pd.raw_content.getD (pd.content.getD "")
  else
    match mdFile with
    | some md => md
    | none => pd.raw_content.getD (pd.content.getD "")

/-- Tables of one consolidated-schema page as loaded: entries whose `rows`
list is non-empty become `ProcessedTable`s, titled by `title`, falling
back to `table_id` and then to a fixed default. -/
def loadFinalTables (ts : List DiskTable) : List ProcessedTable :=
  ts.filterMap fun t =>
    if t.rows.isEmpty then none
    else some { title := t.title.getD (t.table_id.getD "Untitled Table"), data := t.rows }

/-- In-memory record built for page `n` from its consolidated-file entry. -/
def buildFinalPage (edited : Bool) (mdFile : Option String) (n : Nat) (pd : DiskPage) :
    ProcessedPage :=
  { title := pd.title.getD ("Page " ++ toString n)
  , content := selectContent edited mdFile pd
  , tables := loadFinalTables pd.tables
  , keywords := pd.keywords
  , pdf_page_number := n }

/-- Highest key observed in a raw page map (`max(keys)`; `0` for the
empty map, which the loaders guard against separately). -/
def maxKey {α : Type} (m : List (Nat × α)) : Nat :=
  (m.map Prod.fst).foldr max 0

/-- Page range traversed by both loaders: `range(1, total_pdf_pages + 1)`
when the authoritative PDF page count is available (`get_pdf_page_count`
returns `0` on failure, so availability is positivity), else
`range(1, max_page + 1)` over the highest observed page number. -/
def pageRange (totalPdfPages : Nat) (observedMax : Nat) : List Nat :=
  if 0 < totalPdfPages then List.range' 1 totalPdfPages
  else List.range' 1 observedMax

/-- Reconciliation core of `_load_from_final_output`: one record per page
number in the range, in ascending order; a page number absent from the
raw map gets the synthesized placeholder. (The surrounding code errors
out earlier when the `pages` array is empty, so `raw` is non-empty in
every real call.) -/
def reconcileFinal (totalPdfPages : Nat) (raw : List (Nat × DiskPage))
    (edited : Bool) (mdFiles : Nat → Option String) : List ProcessedPage :=
  (pageRange totalPdfPages (maxKey raw)).map fun n =>
    match raw.lookup n with
    | some pd => buildFinalPage edited (mdFiles n) n pd
    | none => create_missing_page_placeholder n

/-- Page numbers classified `missing` by the consolidated-schema loader. -/
def finalMissingPages (totalPdfPages : Nat) (raw : List (Nat × DiskPage)) : List Nat :=
  (pageRange totalPdfPages (maxKey raw)).filter fun n => (raw.lookup n).isNone

/-! ## Loading the legacy per-page schema (`_load_from_individual_files`) -/

/-- One legacy `page_<N>.json` structured record:
`{title, keywords[], tables[{title, data}]}`. -/
structure LegacyTable where
  title : Option String
  data : List Row
deriving DecidableEq, Repr

/-- The page-level legacy structured record. -/
structure LegacyPage where
  title : Option String
  keywords : List String
  tables : List LegacyTable
deriving DecidableEq, Repr

/-- Tables of one legacy page as loaded: entries with non-empty `data`
become `ProcessedTable`s. -/
def loadLegacyTables (ts : List LegacyTable) : List ProcessedTable :=
  ts.filterMap fun t =>
    if t.data.isEmpty then none
    else some { title := t.title.getD "Untitled Table", data := t.data }

/-- In-memory record for a legacy page with a structured record;
`mdContent` is the parallel markdown rendering when present. -/
def buildLegacyPage (n : Nat) (pj : LegacyPage) (mdContent : Option String) : ProcessedPage :=
  { title := pj.title.getD ("Page " ++ toString n)
  , content := mdContent.getD ""
  , tables := loadLegacyTables pj.tables
  , keywords := pj.keywords
  , pdf_page_number := n }

/-- In-memory record for a legacy page with only a markdown rendering
(processing failed after stage 1): classification `incomplete`. -/
def incompleteLegacyPage (n : Nat) (mdContent : String) : ProcessedPage :=
  { title := "⚠️ Incomplete - Page " ++ toString n
  , content := mdContent
  , tables := []
  , keywords := ["incomplete_processing", "pipeline_failure"]
  , pdf_page_number := n }

/-- `json_by_page` / `md_by_page` construction from a directory listing:
`page_num = extract_page_number(name); if page_num: map[page_num] = name`.
The Python truthiness test `if page_num:` drops both `None` (no pattern
match) and page number `0`. Newest binding is consed on so that
`List.lookup` agrees with dict overwrite semantics. -/
def addFileToMap (m : List (Nat × String)) (f : String) : List (Nat × String) :=
  match extract_page_number f with
  | some n => if n = 0 then m else (n, f) :: m
  | none => m

/-- The whole `json_by_page` / `md_by_page` loop over a directory
listing. -/
def buildFileMap (files : List String) : List (Nat × String) :=
  files.foldl addFileToMap []

/-- Reconciliation core of `_load_from_individual_files`: one record per
page number in the range; a structured record gives a normal page, a
markdown-only page is `incomplete`, neither gives the placeholder. -/
def reconcileIndividual (totalPdfPages : Nat) (jsonM : List (Nat × LegacyPage))
    (mdM : List (Nat × String)) : List ProcessedPage :=
  (pageRange totalPdfPages (max (maxKey jsonM) (maxKey mdM))).map fun n =>
    match jsonM.lookup n with
    | some pj => buildLegacyPage n pj (mdM.lookup n)
    | none =>
      match mdM.lookup n with
      | some md => incompleteLegacyPage n md
      | none => create_missing_page_placeholder n

/-- Page numbers recorded in `missing_pages` by the legacy loader:
no structured record and no markdown rendering. -/
def legacyMissingPages (totalPdfPages : Nat) (jsonM : List (Nat × LegacyPage))
    (mdM : List (Nat × String)) : List Nat :=
  (pageRange totalPdfPages (max (maxKey jsonM) (maxKey mdM))).filter fun n =>
    (jsonM.lookup n).isNone && (mdM.lookup n).isNone

/-- Page numbers recorded in `incomplete_pages` by the legacy loader:
a markdown rendering but no structured record. -/
def legacyIncompletePages (totalPdfPages : Nat) (jsonM : List (Nat × LegacyPage))
    (mdM : List (Nat × String)) : List Nat :=
  (pageRange totalPdfPages (max (maxKey jsonM) (maxKey mdM))).filter fun n =>
    (jsonM.lookup n).isNone && (mdM.lookup n).isSome

/-! ## Saving to the consolidated schema (`_save_to_final_output`) -/

/-- Update of the existing on-disk table at index `j` by the session table
at the same index (`j < len(page_data['tables'])` branch): title and rows
are overwritten; when the table has a `metadata` object and the session
table has data, the derived row and column counts are refreshed
(`column_count` is the width of the first row). -/
def updateTable (dt : DiskTable) (t : ProcessedTable) : DiskTable :=
  { dt with
    title := some t.title
    rows := t.data
    metadata :=
      match dt.metadata, t.data with
      | some m, r :: rs =>
        some { m with row_count := (r :: rs).length, column_count := r.length }
      | md, _ => md }

/-- Fresh table created for a session table with no on-disk counterpart
(appended with a freshly minted `table_<j+1>` identifier). -/
def newTable (j : Nat) (t : ProcessedTable) : DiskTable :=
  { table_id := some ("table_" ++ toString (j + 1))
  , title := some t.title
  , description := some ""
  , rows := t.data
  , metadata := some
      { row_count := t.data.length
      , column_count := match t.data with | [] => 0 | r :: _ => r.length
      , data_types := [] } }

/-- The `updated_tables` loop: the session's tables drive the result
(index `j` counts from 0); on-disk tables are consumed positionally, and
any on-disk table at an index at or beyond the session's table count is
not carried over. A session page with no tables yields
`page_data['tables'] = []`, which is the `ts = []` equation. -/
def updatedTables : List DiskTable → Nat → List ProcessedTable → List DiskTable
  | _, _, [] => []
  | [], j, t :: ts => newTable j t :: updatedTables [] (j + 1) ts
  | dt :: dts, j, t :: ts => updateTable dt t :: updatedTables dts (j + 1) ts

/-- Per-page update performed by `_save_to_final_output`: title and
keywords are overwritten; content is written to both `raw_content` and
`content` only when the session content is non-empty (Python truthiness
of `page.content`); the table list is rebuilt; all other page fields are
left untouched. -/
def updatePageData (pd : DiskPage) (p : ProcessedPage) : DiskPage :=
  { pd with
    title := some p.title
    keywords := p.keywords
    raw_content := if p.content = "" then pd.raw_content else some p.content
    content := if p.content = "" then pd.content else some p.content
    tables := updatedTables pd.tables 0 p.tables }

/-- The pages array after `_save_to_final_output`: on-disk pages are
updated positionally from the session (`if i < len(final_data['pages'])`),
on-disk pages beyond the session are kept as they are, and session pages
beyond the on-disk array are not written anywhere. -/
def savePages : List DiskPage → List ProcessedPage → List DiskPage
  | [], _ => []
  | pds, [] => pds
  | pd :: pds, p :: ps => updatePageData pd p :: savePages pds ps

/-- `_save_to_final_output` on a document whose top level has a `pages`
key: the header is untouched, the pages array is updated in place. -/
def saveToFinalOutput (doc : DiskDoc) (session : List ProcessedPage) : DiskDoc :=
  { doc with pages := savePages doc.pages session }

/-! ## Saving to the legacy per-page schema (`_save_to_individual_files`) -/

/-- The structured record written to `page_<pdf_page_number>.json` for one
non-placeholder session page. -/
def individualPageJson (p : ProcessedPage) : LegacyPage :=
  { title := some p.title
  , keywords := p.keywords
  , tables := p.tables.map fun t => { title := some t.title, data := t.data } }

/-- `_save_to_individual_files`, JSON half: each page whose title does not
carry the missing-placeholder marker is written to a file named by its
physical page number. -/
def individualFilesOutput (session : List ProcessedPage) : List (Nat × LegacyPage) :=
  (session.filter fun p => !(("❌ Missing Data").isPrefixOf p.title)).map
    fun p => (p.pdf_page_number, individualPageJson p)

/-! ## Session state and review actions -/

/-- The in-memory review session (the engine-owned part of the Streamlit
session state). -/
structure Session where
  pages : List ProcessedPage
  pageStatuses : List (Nat × String)
  flaggedPages : List Nat
  missingPages : List Nat
  incompletePages : List Nat
  uselessPages : List Nat
  portfolioTag : Option String
deriving DecidableEq, Repr

/-- `_save_inspector_metadata`: the metadata file is rebuilt wholesale
from the session on every save; `now` is the `datetime.now().isoformat()`
value at the moment of the save, written to `last_updated`. -/
def mkInspectorMetadata (s : Session) (now : String) : InspectorMetadata :=
  { page_statuses := s.pageStatuses
  , flagged_pages := s.flaggedPages
  , missing_pages := s.missingPages
  , incomplete_pages := s.incompletePages
  , useless_pages := s.uselessPages
  , last_updated := now
  , total_pages := s.pages.length
  , portfolioTag := s.portfolioTag }

/-- A fresh legacy-schema load (`_load_from_individual_files` followed by
`_finalize_document_loading` with no pre-existing metadata file):
every page pending, nothing flagged, missing/incomplete as classified by
the loader, no useless pages, no portfolio tag. -/
def loadLegacySession (totalPdfPages : Nat) (jsonM : List (Nat × LegacyPage))
    (mdM : List (Nat × String)) : Session :=
  let pages := reconcileIndividual totalPdfPages jsonM mdM
  { pages := pages
  , pageStatuses := (List.range pages.length).map fun i => (i, "pending")
  , flaggedPages := []
  , missingPages := legacyMissingPages totalPdfPages jsonM mdM
  , incompletePages := legacyIncompletePages totalPdfPages jsonM mdM
  , uselessPages := []
  , portfolioTag := none }

/-- Replace the element at an index, leaving the list unchanged when the
index is out of range. -/
def modifyAt {α : Type} (f : α → α) : Nat → List α → List α
  | _, [] => []
  | 0, x :: xs => f x :: xs
  | n + 1, x :: xs => x :: modifyAt f n xs

/-- Dict assignment `m[i] = v` for an association list read with
`List.lookup`: the new binding shadows, older bindings for `i` are
dropped. -/
def setStatus (m : List (Nat × String)) (i : Nat) (v : String) : List (Nat × String) :=
  (i, v) :: m.filter fun p => p.1 != i

/-- Sorted insertion: `useless_pages.append(n); useless_pages.sort()` on
the sorted list the app maintains. -/
def insertSorted (n : Nat) : List Nat → List Nat
  | [] => [n]
  | x :: xs => if n ≤ x then n :: x :: xs else x :: insertSorted n xs

/-- The sentinel table `mark_page_as_useless` writes over each existing
table: `title = "useless"`, `data = [{"content": "useless"}]`. -/
def uselessSentinelTable : ProcessedTable :=
  { title := "useless", data := [[("content", "useless")]] }

/-- In-place page overwrite performed by `mark_page_as_useless`: every
existing table becomes the sentinel (a page with no tables keeps none),
content, title and keywords are overwritten. -/
def markUselessPage (p : ProcessedPage) : ProcessedPage :=
  { p with
    tables := p.tables.map fun _ => uselessSentinelTable
    content := "useless"
    title := "Useless - Page " ++ toString p.pdf_page_number
    keywords := ["useless"] }

/-- `mark_page_as_useless(page_index)`: overwrite the page record, record
its physical page number in `useless_pages` (kept sorted, no duplicates),
and clear its entry from the status map and the flagged set. The missing
and incomplete sets are not touched. -/
def markPageAsUseless (s : Session) (i : Nat) : Session :=
  match s.pages.get? i with
  | none => s
  | some p =>
    let n := p.pdf_page_number
    { s with
      pages := modifyAt markUselessPage i s.pages
      uselessPages :=
        if n ∈ s.uselessPages then s.uselessPages else insertSorted n s.uselessPages
      pageStatuses := s.pageStatuses.filter fun q => q.1 != i
      flaggedPages := s.flaggedPages.filter fun k => k != i }

/-- The Approve button: status of the page becomes `approved` and its
flag, if any, is cleared. -/
def approvePage (s : Session) (i : Nat) : Session :=
  { s with
    pageStatuses := setStatus s.pageStatuses i "approved"
    flaggedPages := s.flaggedPages.filter fun k => k != i }

/-- Modelled from the spec: the Flag transition of §4.3
(`pending|approved → flagged`, clears approved). The reviewed source has
no flag button; `flagged_pages` is only ever restored from metadata, so
the transition itself is missing from `src/` and is taken from the
spec's words. It touches neither the missing nor the incomplete set. -/
def flagPage (s : Session) (i : Nat) : Session :=
  { s with
    pageStatuses := s.pageStatuses.filter fun q => q.1 != i
    flaggedPages := if i ∈ s.flaggedPages then s.flaggedPages else i :: s.flaggedPages }

/-- Edit-mode markdown mutation: the in-memory record is updated
directly. -/
def editPageContent (s : Session) (i : Nat) (c : String) : Session :=
  { s with pages := modifyAt (fun p => { p with content := c }) i s.pages }

/-- Edit-mode table-JSON mutation: the in-memory table list is updated
directly. -/
def editPageTables (s : Session) (i : Nat) (ts : List ProcessedTable) : Session :=
  { s with pages := modifyAt (fun p => { p with tables := ts }) i s.pages }

/-- One user review action. -/
inductive Action where
  | approve (i : Nat)
  | flag (i : Nat)
  | discard (i : Nat)
  | editContent (i : Nat) (c : String)
  | editTables (i : Nat) (ts : List ProcessedTable)
  | save
deriving DecidableEq, Repr

/-- Effect of one action on the in-memory session.
`save_current_state` writes to disk and leaves the session unchanged. -/
def applyAction (s : Session) : Action → Session
  | .approve i => approvePage s i
  | .flag i => flagPage s i
  | .discard i => markPageAsUseless s i
  | .editContent i c => editPageContent s i c
  | .editTables i ts => editPageTables s i ts
  | .save => s

/-- A session reached from `s` by a sequence of review actions. -/
def runActions (s : Session) (acts : List Action) : Session :=
  acts.foldl applyAction s

/-! ## File-write plans and crash behaviour -/

/-- One primitive file operation against a fixed target path and its
side temporary file. -/
inductive WriteStep where
  | writeTemp (data : String)
  | renameTempToTarget
  | truncateTarget
  | appendTarget (data : String)
deriving DecidableEq, Repr

/-- Contents of the target file and of the temporary file (when one
exists). -/
structure FileState where
  target : String
  temp : Option String
deriving DecidableEq, Repr

/-- Effect of one primitive operation. `rename` is the atomic swap:
in one step the target becomes the temporary file's content. -/
def execStep (fs : FileState) : WriteStep → FileState
  | .writeTemp d => { fs with temp := some d }
  | .renameTempToTarget =>
    match fs.temp with
    | some d => { target := d, temp := none }
    | none => fs
  | .truncateTarget => { fs with target := "" }
  | .appendTarget d => { fs with target := fs.target ++ d }

/-- Run a sequence of primitive operations. An interrupted save is a
prefix (`List.take k`) of the full plan. -/
def execSteps (fs : FileState) (steps : List WriteStep) : FileState :=
  steps.foldl execStep fs

/-- Write plan of `_save_to_final_output` for the serialized document
`d`: serialize into a `NamedTemporaryFile` created in the target's
directory, then `shutil.move` it over the target. -/
def finalOutputWritePlan (d : String) : List WriteStep :=
  [.writeTemp d, .renameTempToTarget]

/-- Write plan used by `_save_to_individual_files` for every page JSON
and markdown file, and by `_save_inspector_metadata` for the metadata
file: `open(path, 'w')` truncates the target, then the serialized data is
written to it directly. -/
def directWritePlan (d : String) : List WriteStep :=
  [.truncateTarget, .appendTarget d]

/-! ## General lemmas about the loaders -/

lemma reconcileFinal_map_pageNum (c : Nat) (raw : List (Nat × DiskPage)) (e : Bool)
    (md : Nat → Option String) :
    (reconcileFinal c raw e md).map ProcessedPage.pdf_page_number
      = pageRange c (maxKey raw) := by
  unfold reconcileFinal
  rw [List.map_map]
  refine (List.map_congr_left ?_).trans (List.map_id _)
  intro n _
  simp only [Function.comp, id]
  rcases h : raw.lookup n with _ | pd <;>
    simp [h, buildFinalPage, create_missing_page_placeholder]

lemma reconcileIndividual_map_pageNum (c : Nat) (jsonM : List (Nat × LegacyPage))
    (mdM : List (Nat × String)) :
    (reconcileIndividual c jsonM mdM).map ProcessedPage.pdf_page_number
      = pageRange c (max (maxKey jsonM) (maxKey mdM)) := by
  unfold reconcileIndividual
  rw [List.map_map]
  refine (List.map_congr_left ?_).trans (List.map_id _)
  intro n _
  simp only [Function.comp, id]
  rcases h : jsonM.lookup n with _ | pj
  · rcases h2 : mdM.lookup n with _ | md <;>
      simp [h, h2, incompleteLegacyPage, create_missing_page_placeholder]
  · simp [h, buildLegacyPage]

lemma pageRange_eq (c m : Nat) :
    pageRange c m = List.range' 1 (if 0 < c then c else m) := by
  unfold pageRange
  split <;> simp_all

/-! ## C1: reconciliation is dense, gap-free, ascending -/

/-- C1. For every authoritative page count and every sparse raw-page map,
both loaders produce, in order, one record per page number `1..N` (with
`N` the PDF page count when it is available, i.e. positive, and the
highest observed page number otherwise): mapping the records to their
`pdf_page_number` gives exactly `[1, 2, ..., N]`, so there are exactly
`N` records and the record at index `i` carries page number `i + 1`. -/
theorem c1_reconcile_dense_ascending (c : Nat) (raw : List (Nat × DiskPage)) (e : Bool)
    (md : Nat → Option String) (jsonM : List (Nat × LegacyPage)) (mdM : List (Nat × String)) :
    (reconcileFinal c raw e md).map ProcessedPage.pdf_page_number
        = List.range' 1 (if 0 < c then c else maxKey raw)
    ∧ (reconcileFinal c raw e md).length = (if 0 < c then c else maxKey raw)
    ∧ (reconcileIndividual c jsonM mdM).map ProcessedPage.pdf_page_number
        = List.range' 1 (if 0 < c then c else max (maxKey jsonM) (maxKey mdM))
    ∧ (reconcileIndividual c jsonM mdM).length
        = (if 0 < c then c else max (maxKey jsonM) (maxKey mdM)) := by
  have h1 := reconcileFinal_map_pageNum c raw e md
  have h2 := reconcileIndividual_map_pageNum c jsonM mdM
  rw [pageRange_eq] at h1 h2
  refine ⟨h1, ?_, h2, ?_⟩
  · have := congrArg List.length h1
    simpa using this
  · have := congrArg List.length h2
    simpa using this

/-! ## C2: saving twice -/

/-- An empty review session, used as a concrete instance. -/
def sessionEx : Session :=
  { pages := [], pageStatuses := [], flaggedPages := [], missingPages := []
  , incompletePages := [], uselessPages := [], portfolioTag := none }

/-- C2, counterexample. The review-metadata file embeds the wall-clock
time of the save in its `last_updated` field, so two saves of the same
unchanged session, made at different instants, write different metadata
file contents: the second `Save` is not byte-identical for every file it
writes. -/
theorem c2_counterexample_metadata_timestamp :
    mkInspectorMetadata sessionEx "2025-06-01T10:00:00.000001"
      ≠ mkInspectorMetadata sessionEx "2025-06-01T10:00:00.000002" := by
  decide

lemma updateTable_idem (dt : DiskTable) (t : ProcessedTable) :
    updateTable (updateTable dt t) t = updateTable dt t := by
  obtain ⟨tid, ttl, desc, rows, meta⟩ := dt
  obtain ⟨st, sd⟩ := t
  cases meta <;> cases sd <;> rfl

lemma updateTable_newTable (j : Nat) (t : ProcessedTable) :
    updateTable (newTable j t) t = newTable j t := by
  obtain ⟨st, sd⟩ := t
  cases sd <;> rfl

lemma updatedTables_nil_right (dts : List DiskTable) (j : Nat) :
    updatedTables dts j [] = [] := by
  cases dts <;> rfl

lemma updatedTables_idem (ts : List ProcessedTable) :
    ∀ (dts : List DiskTable) (j : Nat),
      updatedTables (updatedTables dts j ts) j ts = updatedTables dts j ts := by
  induction ts with
  | nil => intro dts j; simp [updatedTables_nil_right]
  | cons t ts ih =>
    intro dts j
    cases dts with
    | nil => simp [updatedTables, updateTable_newTable, ih]
    | cons dt dts => simp [updatedTables, updateTable_idem, ih]

lemma updatePageData_idem (pd : DiskPage) (p : ProcessedPage) :
    updatePageData (updatePageData pd p) p = updatePageData pd p := by
  obtain ⟨pid, pn, ttl, kw, ct, rc, tbs, ex⟩ := pd
  by_cases h : p.content = "" <;>
    simp [updatePageData, h, updatedTables_idem]

lemma savePages_idem :
    ∀ (pds : List DiskPage) (ps : List ProcessedPage),
      savePages (savePages pds ps) ps = savePages pds ps := by
  intro pds
  induction pds with
  | nil => intro ps; cases ps <;> rfl
  | cons pd pds ih =>
    intro ps
    cases ps with
    | nil => rfl
    | cons p ps => simp [savePages, updatePageData_idem, ih]

/-- C2, amended. Calling `Save` twice with no state change in between is
byte-identical for the schema files only. The consolidated save is a
read-modify-write of `final_output.json` and is idempotent: applying the
update to its own output reproduces that output exactly (so the second
serialized file is identical). Legacy per-page JSON and markdown files
are pure functions of the session, hence also identical. The
review-metadata file is not byte-identical: its `last_updated` field
records the wall-clock time of each save
(`c2_counterexample_metadata_timestamp`). -/
theorem c2_schema_save_idempotent (doc : DiskDoc) (session : List ProcessedPage) :
    saveToFinalOutput (saveToFinalOutput doc session) session
      = saveToFinalOutput doc session := by
  simp [saveToFinalOutput, savePages_idem]

/-! ## C3: atomicity of the on-disk writes -/

/-- C3, counterexample. The legacy per-page files and the metadata file
are not written through a temporary file and an atomic swap: their write
plan truncates the target in place, and a save interrupted right after
the truncation leaves the target half-written (here: empty), which is
neither the original content nor the new content. -/
theorem c3_counterexample_direct_write :
    directWritePlan "new content" ≠ finalOutputWritePlan "new content"
    ∧ (execSteps ⟨"original content", none⟩ ((directWritePlan "new content").take 1)).target
        ≠ "original content"
    ∧ (execSteps ⟨"original content", none⟩ ((directWritePlan "new content").take 1)).target
        ≠ "new content" := by
  refine ⟨by decide, ?_, ?_⟩ <;> decide

/-- C3, amended. Only the consolidated-schema save
(`_save_to_final_output`) writes through a temporary file in the target's
directory followed by an atomic swap; for that file the claimed guarantee
holds: whatever prefix of the plan executes before a failure, the target
holds either its original content or the complete new content (never a
half-written state), and the completed plan leaves the new content.
Per-page files and the metadata file are written by truncate-then-write
(`c3_counterexample_direct_write`). Failures of both save routines are
re-raised to the caller. -/
theorem c3_final_output_write_atomic (orig d : String) (k : Nat) :
    ((execSteps ⟨orig, none⟩ ((finalOutputWritePlan d).take k)).target = orig
      ∨ (execSteps ⟨orig, none⟩ ((finalOutputWritePlan d).take k)).target = d)
    ∧ (execSteps ⟨orig, none⟩ (finalOutputWritePlan d)).target = d := by
  refine ⟨?_, rfl⟩
  match k with
  | 0 => exact Or.inl rfl
  | 1 => exact Or.inl rfl
  | n + 2 =>
    refine Or.inr ?_
    simp [finalOutputWritePlan, List.take, execSteps, execStep]

/-! ## C4: table updates on a consolidated save -/

/-- A concrete on-disk table, first position. -/
def dtFirst : DiskTable :=
  { table_id := some "table_1", title := some "Existing A", description := none
  , rows := [[("x", "1")]], metadata := none }

/-- A concrete on-disk table, second position. -/
def dtSecond : DiskTable :=
  { table_id := some "table_2", title := some "Existing B", description := none
  , rows := [[("y", "2")]], metadata := none }

/-- A concrete on-disk page with two tables. -/
def diskPageTwoTables : DiskPage :=
  { page_id := none, page_number := none, title := some "t", keywords := []
  , content := none, raw_content := none, tables := [dtFirst, dtSecond], extra := [] }

/-- A concrete session page carrying a single table. -/
def sessionPageOneTable : ProcessedPage :=
  { title := "t", content := "", tables := [⟨"Edited A", [[("x", "9")]]⟩]
  , keywords := [], pdf_page_number := 1 }

/-- C4, counterexample. A consolidated save does delete tables: when the
session page has fewer tables than the on-disk page, the rebuilt
`tables` list has exactly one entry per session table, so the trailing
on-disk tables are dropped. Here the on-disk page has two tables and the
session page one; after the save the second on-disk table is gone. -/
theorem c4_counterexample_table_dropped :
    dtSecond ∈ diskPageTwoTables.tables
    ∧ dtSecond ∉ (updatePageData diskPageTwoTables sessionPageOneTable).tables
    ∧ (updatePageData diskPageTwoTables sessionPageOneTable).tables.length
        < diskPageTwoTables.tables.length := by
  refine ⟨by decide, by decide, by decide⟩

/-- C4, amended. After a consolidated save, the on-disk page's table list
has exactly one entry per session table: entries at indices below the
on-disk count are the on-disk tables updated in place, later ones are
freshly minted appends — so a session with 3 tables over an on-disk page
with 1 does yield 3 tables on disk — but on-disk tables at indices at or
beyond the session's table count are removed rather than preserved (and a
session page with no tables clears the list). Page fields not owned by
the engine are untouched. -/
theorem c4_saved_tables_track_session :
    (∀ (dts : List DiskTable) (j : Nat) (ts : List ProcessedTable),
      (updatedTables dts j ts).length = ts.length)
    ∧ (∀ (d : DiskTable) (a b c : ProcessedTable),
      updatedTables [d] 0 [a, b, c] = [updateTable d a, newTable 1 b, newTable 2 c])
    ∧ (∀ (dts : List DiskTable) (j : Nat), updatedTables dts j [] = [])
    ∧ (∀ (pd : DiskPage) (p : ProcessedPage),
      (updatePageData pd p).extra = pd.extra
      ∧ (updatePageData pd p).page_id = pd.page_id
      ∧ (updatePageData pd p).page_number = pd.page_number) := by
  refine ⟨?_, ?_, ?_, ?_⟩
  · intro dts j ts
    induction ts generalizing dts j with
    | nil => simp [updatedTables_nil_right]
    | cons t ts ih => cases dts <;> simp [updatedTables, ih]
  · intro d a b c; rfl
  · intro dts j; exact updatedTables_nil_right dts j
  · intro pd p; exact ⟨rfl, rfl, rfl⟩

/-! ## C5: the useless-page overwrite -/

/-- A concrete page with no tables. -/
def zeroTablePage : ProcessedPage :=
  { title := "p", content := "some text", tables := [], keywords := ["k"]
  , pdf_page_number := 4 }

/-- C5, counterexample. `mark_page_as_useless` overwrites each *existing*
table in place; it never installs a table on a page that has none. A page
with zero tables therefore ends with `tables == []`, not with the single
sentinel table the claim requires. -/
theorem c5_counterexample_zero_tables :
    (markUselessPage zeroTablePage).tables = []
    ∧ (markUselessPage zeroTablePage).tables ≠ [uselessSentinelTable] := by
  refine ⟨rfl, by decide⟩

lemma mem_insertSorted (n : Nat) (l : List Nat) : n ∈ insertSorted n l := by
  induction l with
  | nil => simp [insertSorted]
  | cons x xs ih =>
    by_cases h : n ≤ x <;> simp [insertSorted, h]
    exact Or.inr ih

/-- C5, amended. After the Discard operation, the page's content is
`"useless"`, its keywords are `["useless"]`, its title is
`"Useless - Page <n>"`, its physical page number is in `uselessPages`,
and each of its *pre-existing* tables has been replaced by the sentinel
table `{title: "useless", rows: [{"content": "useless"}]}` — so the page
ends with as many sentinel tables as it had tables before, which is the
single sentinel only for a page that had exactly one table (zero tables
stay zero: `c5_counterexample_zero_tables`). -/
theorem c5_useless_overwrite (s : Session) (i : Nat) (p : ProcessedPage)
    (h : s.pages.get? i = some p) :
    (markUselessPage p).tables
        = List.replicate p.tables.length uselessSentinelTable
    ∧ (markUselessPage p).content = "useless"
    ∧ (markUselessPage p).keywords = ["useless"]
    ∧ (markUselessPage p).title = "Useless - Page " ++ toString p.pdf_page_number
    ∧ p.pdf_page_number ∈ (markPageAsUseless s i).uselessPages := by
  refine ⟨?_, rfl, rfl, rfl, ?_⟩
  · simp [markUselessPage, List.map_const']
  · unfold markPageAsUseless
    rw [h]
    by_cases hm : p.pdf_page_number ∈ s.uselessPages <;> simp [hm]
    exact mem_insertSorted _ _

/-- A one-page session holding `zeroTablePage`, as loaded. -/
def sessionOnePage : Session :=
  { pages := [zeroTablePage], pageStatuses := [(0, "pending")], flaggedPages := []
  , missingPages := [], incompletePages := [], uselessPages := [], portfolioTag := none }

/-- Witness for `c5_useless_overwrite` at a concrete session and page. -/
theorem c5_useless_overwrite_witness :
    (markUselessPage zeroTablePage).tables
        = List.replicate zeroTablePage.tables.length uselessSentinelTable
    ∧ (markUselessPage zeroTablePage).content = "useless"
    ∧ (markUselessPage zeroTablePage).keywords = ["useless"]
    ∧ (markUselessPage zeroTablePage).title
        = "Useless - Page " ++ toString zeroTablePage.pdf_page_number
    ∧ zeroTablePage.pdf_page_number ∈ (markPageAsUseless sessionOnePage 0).uselessPages :=
  c5_useless_overwrite sessionOnePage 0 zeroTablePage rfl

/-! ## C6: disjointness of the classification sets -/

/-- A concrete legacy structured record with no tables. -/
def legacyPageEx : LegacyPage := { title := none, keywords := [], tables := [] }

/-- C6, counterexample. Reachable by a load followed by one Discard:
load a legacy document with `page_1.json` present and `page_2.md` only
(so page 2 is classified `incomplete`), then mark page 2 (index 1) as
useless. `mark_page_as_useless` adds the page number to `useless_pages`
but never removes it from `incomplete_pages`, so page 2 now appears in
two of the three sets. -/
theorem c6_counterexample_incomplete_useless_overlap :
    2 ∈ (runActions (loadLegacySession 2 [(1, legacyPageEx)] [(2, "stage one text")])
          [Action.discard 1]).incompletePages
    ∧ 2 ∈ (runActions (loadLegacySession 2 [(1, legacyPageEx)] [(2, "stage one text")])
          [Action.discard 1]).uselessPages := by
  refine ⟨by decide, by decide⟩

lemma markPageAsUseless_missingPages (s : Session) (i : Nat) :
    (markPageAsUseless s i).missingPages = s.missingPages := by
  unfold markPageAsUseless
  cases s.pages.get? i <;> rfl

lemma markPageAsUseless_incompletePages (s : Session) (i : Nat) :
    (markPageAsUseless s i).incompletePages = s.incompletePages := by
  unfold markPageAsUseless
  cases s.pages.get? i <;> rfl

lemma applyAction_missingPages (s : Session) (a : Action) :
    (applyAction s a).missingPages = s.missingPages := by
  cases a with
  | discard i => exact markPageAsUseless_missingPages s i
  | _ => rfl

lemma applyAction_incompletePages (s : Session) (a : Action) :
    (applyAction s a).incompletePages = s.incompletePages := by
  cases a with
  | discard i => exact markPageAsUseless_incompletePages s i
  | _ => rfl

lemma runActions_missingPages (acts : List Action) :
    ∀ s : Session, (runActions s acts).missingPages = s.missingPages := by
  induction acts with
  | nil => intro s; rfl
  | cons a acts ih =>
    intro s
    show (runActions (applyAction s a) acts).missingPages = s.missingPages
    rw [ih, applyAction_missingPages]

lemma runActions_incompletePages (acts : List Action) :
    ∀ s : Session, (runActions s acts).incompletePages = s.incompletePages := by
  induction acts with
  | nil => intro s; rfl
  | cons a acts ih =>
    intro s
    show (runActions (applyAction s a) acts).incompletePages = s.incompletePages
    rw [ih, applyAction_incompletePages]

lemma legacy_missing_incomplete_disjoint (c : Nat) (jsonM : List (Nat × LegacyPage))
    (mdM : List (Nat × String)) :
    legacyMissingPages c jsonM mdM ∩ legacyIncompletePages c jsonM mdM = [] := by
  rw [List.eq_nil_iff_forall_not_mem]
  intro n hn
  rw [List.mem_inter_iff] at hn
  obtain ⟨h1, h2⟩ := hn
  rw [legacyMissingPages, List.mem_filter] at h1
  rw [legacyIncompletePages, List.mem_filter] at h2
  have e1 := h1.2
  have e2 := h2.2
  simp only [Bool.and_eq_true, Option.isNone_iff_eq_none, Option.isSome_iff_exists] at e1 e2
  obtain ⟨_, hsome⟩ := e2.2
  rw [e1.2] at hsome
  cases hsome

/-- C6, amended. In every session state reachable by a (fresh) legacy
load followed by an arbitrary sequence of review actions, `missingPages`
and `incompletePages` are disjoint: the loader assigns each page number
to at most one of them and no action ever modifies either set. The
three-way claim fails: Discard adds the page number to `uselessPages`
without removing it from `missingPages`/`incompletePages`, so
`uselessPages` can overlap both
(`c6_counterexample_incomplete_useless_overlap`). -/
theorem c6_missing_incomplete_disjoint (c : Nat) (jsonM : List (Nat × LegacyPage))
    (mdM : List (Nat × String)) (acts : List Action) :
    (runActions (loadLegacySession c jsonM mdM) acts).missingPages
        ∩ (runActions (loadLegacySession c jsonM mdM) acts).incompletePages = [] := by
  rw [runActions_missingPages, runActions_incompletePages]
  exact legacy_missing_incomplete_disjoint c jsonM mdM

/-! ## C7: page-number derivation for consolidated entries -/

/-- A concrete consolidated-file page entry whose `page_id` does not match
the `page_<N>` pattern but which carries an explicit `page_number`. -/
def pdCoverWithNumber : DiskPage :=
  { page_id := some "cover", page_number := some 7, title := some "Cover"
  , keywords := [], content := none, raw_content := none, tables := [], extra := [] }

/-- C7, counterexample. An entry whose `page_id` is present but does not
match the `page_<N>` pattern does *not* fall through to its `page_number`
field: because the explicit page number sits behind an `elif`, the entry
falls directly to the positional default. Here `page_number` is 7 but the
derived page number at index 0 is 1. -/
theorem c7_counterexample_page_id_shadows_page_number :
    pdCoverWithNumber.page_number = some 7
    ∧ extract_page_number "cover" = none
    ∧ derivePageNum 0 pdCoverWithNumber = 1
    ∧ derivePageNum 0 pdCoverWithNumber ≠ 7 := by
  refine ⟨rfl, by decide, by decide, by decide⟩

/-- C7, amended. The page number of a consolidated entry is derived as:
(1) when the page-identifier field is present and matches the `page_<N>`
pattern, the embedded number wins; (2) when the page-identifier field is
present but does not match, the positional index plus one is used — the
explicit page-number field is *not* consulted; (3) the explicit
page-number field is used only when the page-identifier field is absent;
(4) with neither field present, the positional index plus one is used. -/
theorem c7_page_number_derivation :
    (∀ (i : Nat) (pd : DiskPage) (pid : String) (n : Nat),
      pd.page_id = some pid → extract_page_number pid = some n →
        derivePageNum i pd = n)
    ∧ (∀ (i : Nat) (pd : DiskPage) (pid : String),
      pd.page_id = some pid → extract_page_number pid = none →
        derivePageNum i pd = i + 1)
    ∧ (∀ (i : Nat) (pd : DiskPage) (n : Nat),
      pd.page_id = none → pd.page_number = some n →
        derivePageNum i pd = n)
    ∧ (∀ (i : Nat) (pd : DiskPage),
      pd.page_id = none → pd.page_number = none →
        derivePageNum i pd = i + 1) := by
  refine ⟨?_, ?_, ?_, ?_⟩ <;>
    (intros; unfold derivePageNum; simp_all)

/-- A concrete entry with a pattern-matching page identifier. -/
def pdWithId12 : DiskPage :=
  { page_id := some "page_12", page_number := some 3, title := none
  , keywords := [], content := none, raw_content := none, tables := [], extra := [] }

/-- A concrete entry with only an explicit page number. -/
def pdWithNumber9 : DiskPage :=
  { page_id := none, page_number := some 9, title := none
  , keywords := [], content := none, raw_content := none, tables := [], extra := [] }

/-- A concrete entry with neither identifying field. -/
def pdAnonymous : DiskPage :=
  { page_id := none, page_number := none, title := none
  , keywords := [], content := none, raw_content := none, tables := [], extra := [] }

/-- Witness for `c7_page_number_derivation`: the four cases at concrete
entries. -/
theorem c7_page_number_derivation_witness :
    derivePageNum 4 pdWithId12 = 12
    ∧ derivePageNum 4 pdCoverWithNumber = 5
    ∧ derivePageNum 4 pdWithNumber9 = 9
    ∧ derivePageNum 4 pdAnonymous = 5 :=
  ⟨c7_page_number_derivation.1 4 pdWithId12 "page_12" 12 rfl (by decide),
   c7_page_number_derivation.2.1 4 pdCoverWithNumber "cover" rfl (by decide),
   c7_page_number_derivation.2.2.1 4 pdWithNumber9 9 rfl rfl,
   c7_page_number_derivation.2.2.2 4 pdAnonymous rfl rfl⟩

/-! ## C9: a save never resizes the on-disk pages array -/

lemma savePages_get? :
    ∀ (pds : List DiskPage) (ps : List ProcessedPage) (i : Nat),
      (savePages pds ps).get? i
        = match pds.get? i, ps.get? i with
          | some pd, some p => some (updatePageData pd p)
          | some pd, none => some pd
          | none, _ => none := by
  intro pds
  induction pds with
  | nil => intro ps i; cases ps <;> cases i <;> rfl
  | cons pd pds ih =>
    intro ps i
    cases ps with
    | nil =>
      show (pd :: pds).get? i
          = match (pd :: pds).get? i, ([] : List ProcessedPage).get? i with
            | some pd, some p => some (updatePageData pd p)
            | some pd, none => some pd
            | none, _ => none
      cases h : (pd :: pds).get? i <;> rfl
    | cons p ps =>
      cases i with
      | zero => rfl
      | succ i => simpa [savePages] using ih ps i

lemma savePages_length :
    ∀ (pds : List DiskPage) (ps : List ProcessedPage),
      (savePages pds ps).length = pds.length := by
  intro pds
  induction pds with
  | nil => intro ps; cases ps <;> rfl
  | cons pd pds ih =>
    intro ps
    cases ps with
    | nil => rfl
    | cons p ps => simpa [savePages] using ih ps

/-- C9. A consolidated save never changes the shape of the on-disk file:
the `pages` array keeps its length and the header keeps its content; the
entry at index `i` is the old entry updated from the session page at the
same index when one exists, the unchanged old entry when the session is
shorter, and a session page at an index at or beyond the on-disk array
(such as a synthesized missing-page placeholder past the extracted
pages) is silently not written anywhere. -/
theorem c9_save_preserves_page_array (doc : DiskDoc) (session : List ProcessedPage) :
    (saveToFinalOutput doc session).pages.length = doc.pages.length
    ∧ (saveToFinalOutput doc session).document_info = doc.document_info
    ∧ (∀ i : Nat, (saveToFinalOutput doc session).pages.get? i
        = match doc.pages.get? i, session.get? i with
          | some pd, some p => some (updatePageData pd p)
          | some pd, none => some pd
          | none, _ => none) := by
  refine ⟨savePages_length doc.pages session, rfl, ?_⟩
  intro i
  exact savePages_get? doc.pages session i

/-! ## C10: page number zero in legacy filenames -/

lemma addFileToMap_no_match (m : List (Nat × String)) (f : String)
    (h : extract_page_number f = none) : addFileToMap m f = m := by
  simp [addFileToMap, h]

lemma addFileToMap_zero (m : List (Nat × String)) (f : String)
    (h : extract_page_number f = some 0) : addFileToMap m f = m := by
  simp [addFileToMap, h]

lemma buildFileMap_go_all_ne_zero :
    ∀ (files : List String) (acc : List (Nat × String)),
      (acc.all fun q => q.1 != 0) = true →
      ((files.foldl addFileToMap acc).all fun q => q.1 != 0) = true := by
  intro files
  induction files with
  | nil => intro acc h; exact h
  | cons f fs ih =>
    intro acc h
    show ((fs.foldl addFileToMap (addFileToMap acc f)).all fun q => q.1 != 0) = true
    refine ih _ ?_
    unfold addFileToMap
    cases hx : extract_page_number f with
    | none => exact h
    | some n =>
      by_cases hn : n = 0
      · simp [hn, h]
      · simp [hn, h]

/-- C10. A legacy file whose name matches the page pattern with page
number 0 (`page_0.json`, `page_0.md`) is ignored by the loader exactly
as if the name had not matched: the pattern does extract 0, but the
Python truthiness test `if page_num:` drops it, so removing the file
from the listing leaves the loader's page map unchanged, and page number
0 never occurs as a key of any built map. -/
theorem c10_page_zero_ignored :
    extract_page_number "page_0.json" = some 0
    ∧ extract_page_number "page_0.md" = some 0
    ∧ (∀ pre post : List String,
        buildFileMap (pre ++ "page_0.json" :: post) = buildFileMap (pre ++ post))
    ∧ (∀ pre post : List String,
        buildFileMap (pre ++ "page_0.md" :: post) = buildFileMap (pre ++ post))
    ∧ (∀ files : List String,
        ((buildFileMap files).all fun q => q.1 != 0) = true) := by
  refine ⟨by decide, by decide, ?_, ?_, ?_⟩
  · intro pre post
    unfold buildFileMap
    rw [List.foldl_append, List.foldl_append]
    show List.foldl addFileToMap (addFileToMap _ "page_0.json") post = _
    rw [addFileToMap_zero _ _ (by decide)]
  · intro pre post
    unfold buildFileMap
    rw [List.foldl_append, List.foldl_append]
    show List.foldl addFileToMap (addFileToMap _ "page_0.md") post = _
    rw [addFileToMap_zero _ _ (by decide)]
  · intro files
    exact buildFileMap_go_all_ne_zero files [] rfl

/-! ## C8: the edited-document heuristic -/

/-- Modelled from the spec's words, for the refinement comparison with
`documentHasBeenEdited`: page `i` has review status approved or flagged
when the per-page status map records it so, or when `i` is in the flagged
set (the metadata file records flags in `flagged_pages`). -/
def specApprovedOrFlagged (m : InspectorMetadata) (i : Nat) : Prop :=
  m.page_statuses.lookup i = some "approved"
  ∨ m.page_statuses.lookup i = some "flagged"
  ∨ i ∈ m.flagged_pages

/-- Modelled from the spec's words: a document counts as edited when at
least one page has review status approved or flagged, or `uselessPages`
is non-empty, or the portfolio tag is set and non-blank. -/
def editedSpec (m : InspectorMetadata) : Prop :=
  (∃ i, specApprovedOrFlagged m i)
  ∨ m.useless_pages ≠ []
  ∨ (∃ s, m.portfolioTag = some s ∧ s.trim ≠ "")

lemma lookup_eq_some_of_mem_nodupKeys {l : List (Nat × String)} {k : Nat} {v : String}
    (hnd : (l.map Prod.fst).Nodup) (hm : (k, v) ∈ l) : l.lookup k = some v := by
  induction l with
  | nil => cases hm
  | cons p l ih =>
    obtain ⟨k2, v2⟩ := p
    rcases List.mem_cons.mp hm with h | h
    · cases h
      simp [List.lookup]
    · have hkmem : k ∈ l.map Prod.fst := by
        have := List.mem_map_of_mem Prod.fst h
        simpa using this
      have hk : k ≠ k2 := by
        intro he
        rw [he] at hkmem
        exact (List.nodup_cons.mp hnd).1 hkmem
      have hb : (k == k2) = false := beq_eq_false_iff_ne.mpr hk
      simpa [List.lookup, hb] using ih (List.nodup_cons.mp hnd).2 h

lemma mem_of_lookup_eq_some {l : List (Nat × String)} {k : Nat} {v : String}
    (h : l.lookup k = some v) : (k, v) ∈ l := by
  induction l with
  | nil => cases h
  | cons p l ih =>
    obtain ⟨k2, v2⟩ := p
    by_cases hk : k = k2
    · subst hk
      simp [List.lookup] at h
      subst h
      exact List.mem_cons_self _ _
    · have hb : (k == k2) = false := beq_eq_false_iff_ne.mpr hk
      simp only [List.lookup, hb] at h
      exact List.mem_cons_of_mem _ (ih h)

/-- C8. The source's edited-document heuristic coincides with the spec's
(for metadata whose status map has no duplicate keys, as a JSON object
guarantees): the document counts as edited exactly when some page is
approved or flagged, `uselessPages` is non-empty, or the portfolio tag is
set and non-blank; an absent metadata file counts as unedited. Moreover
when edited, a normal page's content is taken from the consolidated file
(`raw_content`, falling back to `content`), and when not edited the
first-pass markdown rendering is used when present, with the
consolidated-file fallback otherwise. -/
theorem c8_edited_heuristic (m : InspectorMetadata)
    (hnd : (m.page_statuses.map Prod.fst).Nodup) :
    (documentHasBeenEdited (some m) = true ↔ editedSpec m)
    ∧ documentHasBeenEdited none = false
    ∧ (∀ (md : Option String) (pd : DiskPage),
        selectContent true md pd = pd.raw_content.getD (pd.content.getD ""))
    ∧ (∀ (s : String) (pd : DiskPage), selectContent false (some s) pd = s)
    ∧ (∀ pd : DiskPage,
        selectContent false none pd = pd.raw_content.getD (pd.content.getD "")) := by
  refine ⟨?_, rfl, fun _ _ => rfl, fun _ _ => rfl, fun _ => rfl⟩
  simp only [documentHasBeenEdited, Bool.or_eq_true, or_assoc]
  constructor
  · intro h
    rcases h with hrev | hus | hflag | hport
    · rw [List.any_eq_true] at hrev
      obtain ⟨⟨k, v⟩, hmem, hv⟩ := hrev
      simp only [Bool.or_eq_true, beq_iff_eq] at hv
      refine Or.inl ⟨k, ?_⟩
      have hl := lookup_eq_some_of_mem_nodupKeys hnd hmem
      rcases hv with rfl | rfl
      · exact Or.inl hl
      · exact Or.inr (Or.inl hl)
    · refine Or.inr (Or.inl ?_)
      intro he
      simp [he] at hus
    · have hne : m.flagged_pages ≠ [] := by
        intro he
        simp [he] at hflag
      obtain ⟨i, hi⟩ := List.exists_mem_of_ne_nil _ hne
      exact Or.inl ⟨i, Or.inr (Or.inr hi)⟩
    · rcases hps : m.portfolioTag with _ | s
      · rw [hps] at hport
        simp at hport
      · rw [hps] at hport
        refine Or.inr (Or.inr ⟨s, hps, ?_⟩)
        simpa using hport
  · intro h
    rcases h with ⟨i, hl | hl | hi⟩ | hus | ⟨s, hps, hs⟩
    · refine Or.inl ?_
      rw [List.any_eq_true]
      exact ⟨(i, "approved"), mem_of_lookup_eq_some hl, by simp⟩
    · refine Or.inl ?_
      rw [List.any_eq_true]
      exact ⟨(i, "flagged"), mem_of_lookup_eq_some hl, by simp⟩
    · refine Or.inr (Or.inr (Or.inl ?_))
      cases hfp : m.flagged_pages with
      | nil => rw [hfp] at hi; cases hi
      | cons a l => simp [hfp]
    · refine Or.inr (Or.inl ?_)
      cases hup : m.useless_pages with
      | nil => exact absurd hup hus
      | cons a l => simp [hup]
    · refine Or.inr (Or.inr (Or.inr ?_))
      rw [hps]
      simpa using hs


/-- A concrete metadata file with one approved page. -/
def mApprovedOne : InspectorMetadata :=
  { page_statuses := [(0, "approved"), (1, "pending")], flagged_pages := []
  , missing_pages := [], incomplete_pages := [], useless_pages := []
  , last_updated := "2025-06-01T10:00:00", total_pages := 2, portfolioTag := none }

/-- Witness for `c8_edited_heuristic` at a concrete metadata file. -/
theorem c8_edited_heuristic_witness :
    documentHasBeenEdited (some mApprovedOne) = true ↔ editedSpec mApprovedOne :=
  (c8_edited_heuristic mApprovedOne (by decide)).1

end SandwichInspector
